import Mathlib

/-!
Shallow embedding of the client-side delivery layer of this repository:
the `MessageSender` class of `src/lib/index.ts` (disposition handling in
`_trySend`, batch envelope construction in `sendBatch`, `close`, and the
initialization path of `send`/`sendBatch` through `_init`), and the
receiver guards of `src/lib/subscriptionClient.ts`.  Pure data flow is
translated to Lean functions; the event-driven parts (disposition
handlers, the per-sender initialization lock) become explicit state
transitions.  The `defaultLock` and `retry` helpers come from the
`amqp-common` package whose source is not part of this repository; they
are modelled from the specification where so marked.
-/

namespace SBus

/-- A structured AMQP error as reported by the remote peer in a delivery
disposition (`delivery.remote_state.error`).  Kept symbolic: only its
identity matters to the sender code. -/
structure AmqpErr where
  condition : String
  description : String
  deriving DecidableEq

/-- The delivery object of the underlying link, as observed by the
disposition handlers of `_trySend`: `remoteError` is
`delivery.remote_state.error` (absent when the remote attached no error). -/
structure Delivery where
  id : Nat
  remoteError : Option AmqpErr
  deriving DecidableEq

/-- The four disposition events a sender link can raise for a delivery. -/
inductive DispEvent where
  | accepted
  | rejected
  | released
  | modified
  deriving DecidableEq

/-- Errors with which a `_trySend` promise can be rejected.
`translated e` stands for `translate(e)` of amqp-common applied to the
remote-reported error; the two `...Disposition` constructors are the
synthetic errors built in the `released`/`modified` handlers when the
delivery carries no remote error; `noCredit` is the error of the
no-send-credit branch. -/
inductive SendError where
  | translated (remoteError : Option AmqpErr)
  | releasedDisposition (connId id : String)
  | modifiedDisposition (connId id : String)
  | noCredit (connId id : String)
  deriving DecidableEq

/-- The message text of the `noCredit` rejection, as built at lines
244-245 of `src/lib/index.ts`. -/
def noCreditMessage (connId id : String) : String :=
  "[" ++ connId ++ "]Sender \"" ++ id ++
    "\", cannot send the message right now. Please try later."

/-- Settlement of the promise returned by `_trySend`: `resolve(delivery)`
or `reject(error)`. -/
inductive SendOutcome where
  | resolved (d : Delivery)
  | rejectedWith (e : SendError)
  deriving DecidableEq

/-- The outcome each disposition handler of `_trySend` produces for a
delivery (lines 195-235 of `src/lib/index.ts`): `accepted` resolves with
the delivery; `rejected` rejects with the translated remote error;
`released`/`modified` reject with the translated remote error when one is
present and with a synthetic error otherwise. -/
def dispositionOutcome (connId id : String) (d : Delivery) : DispEvent → SendOutcome
  | .accepted => .resolved d
  | .rejected => .rejectedWith (.translated d.remoteError)
  | .released =>
    match d.remoteError with
    | some e => .rejectedWith (.translated (some e))
    | none => .rejectedWith (.releasedDisposition connId id)
  | .modified =>
    match d.remoteError with
    | some e => .rejectedWith (.translated (some e))
    | none => .rejectedWith (.modifiedDisposition connId id)

/-- Which of the four disposition handlers are currently registered on
the link. -/
structure Handlers where
  accepted : Bool
  rejected : Bool
  released : Bool
  modified : Bool
  deriving DecidableEq

/-- All four handlers registered (the state right after lines 236-239). -/
def Handlers.allOn : Handlers := ⟨true, true, true, true⟩

/-- No handler registered. -/
def Handlers.allOff : Handlers := ⟨false, false, false, false⟩

/-- Whether the handler for event `e` is registered. -/
def Handlers.registered (h : Handlers) : DispEvent → Bool
  | .accepted => h.accepted
  | .rejected => h.rejected
  | .released => h.released
  | .modified => h.modified

/-- The state of one in-flight `_trySend` promise: the handlers still
registered on the link, and the settlement of the promise (none while
pending; a promise settles at most once). -/
structure PendingSend where
  handlers : Handlers
  settled : Option SendOutcome
  deriving DecidableEq

/-- The `removeListeners` closure of `_trySend` (lines 188-193): removes
all four disposition handlers from the link. -/
def removeListeners (p : PendingSend) : PendingSend :=
  { p with handlers := Handlers.allOff }

/-- Settling a promise: `resolve`/`reject` on an already settled promise
is a no-op. -/
def settle (p : PendingSend) (o : SendOutcome) : PendingSend :=
  match p.settled with
  | none => { p with settled := some o }
  | some _ => p

/-- Delivery of one disposition event to the link.  The corresponding
handler runs only if it is still registered; its first action is
`removeListeners`, after which it resolves or rejects the promise with
the outcome of the disposition. -/
def fireEvent (connId id : String) (d : Delivery) (p : PendingSend) (e : DispEvent) :
    PendingSend :=
  if p.handlers.registered e then
    settle (removeListeners p) (dispositionOutcome connId id d e)
  else p

/-- Delivery of a sequence of disposition events, in order. -/
def fireEvents (connId id : String) (d : Delivery) (p : PendingSend)
    (es : List DispEvent) : PendingSend :=
  es.foldl (fireEvent connId id d) p

/-- Operations `_trySend` performs on the underlying link. -/
inductive SenderOp where
  | registerHandler (e : DispEvent)
  | removeHandler (e : DispEvent)
  | send
  deriving DecidableEq

/-- The registrations issued by lines 236-239 of `src/lib/index.ts`, in
source order (`accepted`, `rejected`, `modified`, `released`). -/
def registrationOps : List SenderOp :=
  [.registerHandler .accepted, .registerHandler .rejected,
   .registerHandler .modified, .registerHandler .released]

/-- The synchronous executor of the promise created by `_trySend`
(lines 179-249): when the link is sendable it registers the four
handlers and then issues the send, leaving the promise pending; when the
link is not sendable it performs no link operation and rejects at once
with the `noCredit` error. -/
def trySendExecutor (connId id : String) (sendable : Bool) :
    List SenderOp × PendingSend :=
  if sendable then
    (registrationOps ++ [SenderOp.send], ⟨Handlers.allOn, none⟩)
  else
    ([], ⟨Handlers.allOff, some (.rejectedWith (.noCredit connId id))⟩)

/-- A JavaScript promise as `retry` sees it: the number of link sends its
creation performed, and its (eventual) settlement. -/
structure PromiseCell where
  sendsIssued : Nat
  outcome : Option SendOutcome
  deriving DecidableEq

/-- The one promise `_trySend` creates before calling `retry`: its
executor has already run (issuing `sendsIssued` link sends), and the
disposition events `es` settle it. -/
def trySendPromiseCell (connId id : String) (sendable : Bool) (d : Delivery)
    (es : List DispEvent) : PromiseCell :=
  let r := trySendExecutor connId id sendable
  ⟨r.1.count SenderOp.send, (fireEvents connId id d r.2 es).settled⟩

/-- The operation `_trySend` passes to `retry` is `() => sendEventPromise`
(line 251): forcing it performs no new link work and yields the promise
already created before `retry` ran. -/
def constPromiseThunk (cell : PromiseCell) : Unit → Nat × Option SendOutcome :=
  fun _ => (0, cell.outcome)

/-- Modelled from the spec: the `retry` combinator of amqp-common (its
source is not under src/) performs bounded attempts with backoff; each
attempt invokes the supplied operation and awaits the resulting promise,
stopping on a resolved outcome and retrying on a failed one.  Returns
the fresh link sends performed across the attempts and the outcome each
attempt observed. -/
def retryRun (op : Unit → Nat × Option SendOutcome) :
    Nat → Nat × List (Option SendOutcome)
  | 0 => (0, [])
  | n + 1 =>
    let a := op ()
    match a.2 with
    | some (SendOutcome.resolved _) => (a.1, [a.2])
    | _ =>
      let rest := retryRun op n
      (a.1 + rest.1, a.2 :: rest.2)

/-- The complete `_trySend` call: the promise is created once (its
executor runs immediately), then `retry` re-awaits the operation for up
to `attempts` attempts.  Returns the total link sends issued and the
outcome observed by each attempt. -/
def trySendWithRetry (connId id : String) (sendable : Bool) (d : Delivery)
    (es : List DispEvent) (attempts : Nat) : Nat × List (Option SendOutcome) :=
  let cell := trySendPromiseCell connId id sendable d es
  let r := retryRun (constPromiseThunk cell) attempts
  (cell.sendsIssued + r.1, r.2)

lemma fireEvent_not_registered (connId id : String) (d : Delivery) (p : PendingSend)
    (e : DispEvent) (h : p.handlers.registered e = false) :
    fireEvent connId id d p e = p := by
  simp [fireEvent, h]

lemma fireEvent_allOff (connId id : String) (d : Delivery) (p : PendingSend)
    (e : DispEvent) (h : p.handlers = Handlers.allOff) :
    fireEvent connId id d p e = p := by
  apply fireEvent_not_registered
  cases e <;> simp [h, Handlers.registered, Handlers.allOff]

lemma fireEvents_allOff (connId id : String) (d : Delivery) (p : PendingSend)
    (es : List DispEvent) (h : p.handlers = Handlers.allOff) :
    fireEvents connId id d p es = p := by
  induction es with
  | nil => rfl
  | cons e rest ih =>
    show fireEvents connId id d (fireEvent connId id d p e) rest = p
    rw [fireEvent_allOff connId id d p e h, ih]

lemma fireEvent_fresh (connId id : String) (d : Delivery) (e : DispEvent) :
    fireEvent connId id d ⟨Handlers.allOn, none⟩ e
      = ⟨Handlers.allOff, some (dispositionOutcome connId id d e)⟩ := by
  have hreg : (Handlers.allOn).registered e = true := by
    cases e <;> simp [Handlers.registered, Handlers.allOn]
  simp [fireEvent, hreg, settle, removeListeners]

lemma settle_already (p : PendingSend) (o o2 : SendOutcome) (h : p.settled = some o) :
    settle p o2 = p := by
  simp [settle, h]

/-- C2: when the link is sendable, `_trySend` registers the four
disposition handlers (one per event, no send among them) strictly before
issuing the send; a handled event removes all four handlers as its first
action; delivering any nonempty sequence of disposition events to the
freshly registered state settles the promise exactly once, with the
outcome of the first event; events reaching a state with no registered
handler change nothing, and settling an already settled promise is a
no-op. -/
theorem trySend_exactly_one_settlement (connId id : String) (d : Delivery)
    (e : DispEvent) (rest : List DispEvent) :
    (trySendExecutor connId id true).1 = registrationOps ++ [SenderOp.send]
    ∧ (∀ ev : DispEvent, SenderOp.registerHandler ev ∈ registrationOps)
    ∧ SenderOp.send ∉ registrationOps
    ∧ (∀ p : PendingSend, p.handlers.registered e = true →
        (fireEvent connId id d p e).handlers = Handlers.allOff)
    ∧ fireEvents connId id d ⟨Handlers.allOn, none⟩ (e :: rest)
        = ⟨Handlers.allOff, some (dispositionOutcome connId id d e)⟩
    ∧ (∀ (p : PendingSend) (e2 : DispEvent), p.handlers = Handlers.allOff →
        fireEvent connId id d p e2 = p)
    ∧ (∀ (p : PendingSend) (o o2 : SendOutcome), p.settled = some o →
        settle p o2 = p) := by
  refine ⟨rfl, ?_, ?_, ?_, ?_, ?_, ?_⟩
  · intro ev; cases ev <;> simp [registrationOps]
  · simp [registrationOps]
  · intro p h
    simp [fireEvent, h, settle, removeListeners]
    cases hs : p.settled <;> simp
  · show fireEvents connId id d (fireEvent connId id d ⟨Handlers.allOn, none⟩ e) rest = _
    rw [fireEvent_fresh]
    exact fireEvents_allOff connId id d _ rest rfl
  · exact fun p e2 h => fireEvent_allOff connId id d p e2 h
  · exact settle_already

/-- Witness for `trySend_exactly_one_settlement` at a concrete input: an
`accepted` disposition followed by a stray `rejected` settles the
promise once, as resolved with the delivery, and the handled event
cleared all handlers. -/
theorem trySend_exactly_one_settlement_witness :
    fireEvents "conn-1" "sender-1" ⟨7, none⟩ ⟨Handlers.allOn, none⟩
        [DispEvent.accepted, DispEvent.rejected]
      = ⟨Handlers.allOff, some (SendOutcome.resolved ⟨7, none⟩)⟩
    ∧ (fireEvent "conn-1" "sender-1" ⟨7, none⟩ ⟨Handlers.allOn, none⟩
        DispEvent.accepted).handlers = Handlers.allOff :=
  ⟨(trySend_exactly_one_settlement "conn-1" "sender-1" ⟨7, none⟩
      DispEvent.accepted [DispEvent.rejected]).2.2.2.2.1,
   (trySend_exactly_one_settlement "conn-1" "sender-1" ⟨7, none⟩
      DispEvent.accepted []).2.2.2.1 ⟨Handlers.allOn, none⟩ (by decide)⟩

/-- C3: an `accepted` disposition resolves the promise with the
delivery; `rejected` rejects with the translated remote error;
`released` and `modified` reject with the translated remote error when
the delivery carries one and otherwise with the synthetic
release/modified-disposition error. -/
theorem trySend_disposition_outcomes (connId id : String) (d : Delivery) :
    dispositionOutcome connId id d .accepted = .resolved d
    ∧ dispositionOutcome connId id d .rejected
        = .rejectedWith (.translated d.remoteError)
    ∧ (∀ e : AmqpErr, d.remoteError = some e →
        dispositionOutcome connId id d .released
            = .rejectedWith (.translated (some e))
        ∧ dispositionOutcome connId id d .modified
            = .rejectedWith (.translated (some e)))
    ∧ (d.remoteError = none →
        dispositionOutcome connId id d .released
            = .rejectedWith (.releasedDisposition connId id)
        ∧ dispositionOutcome connId id d .modified
            = .rejectedWith (.modifiedDisposition connId id)) := by
  refine ⟨rfl, rfl, ?_, ?_⟩
  · intro e he; rw [show d = ⟨d.id, some e⟩ by cases d; simp_all]
    exact ⟨rfl, rfl⟩
  · intro he; rw [show d = ⟨d.id, none⟩ by cases d; simp_all]
    exact ⟨rfl, rfl⟩

/-- Witness for `trySend_disposition_outcomes` at concrete inputs: a
released delivery carrying a remote error rejects with its translation;
a modified delivery without a remote error rejects with the synthetic
error. -/
theorem trySend_disposition_outcomes_witness :
    dispositionOutcome "c" "s" ⟨1, some ⟨"amqp:link:detach-forced", "gone"⟩⟩ .released
      = .rejectedWith (.translated (some ⟨"amqp:link:detach-forced", "gone"⟩))
    ∧ dispositionOutcome "c" "s" ⟨2, none⟩ .modified
      = .rejectedWith (.modifiedDisposition "c" "s") :=
  ⟨((trySend_disposition_outcomes "c" "s"
      ⟨1, some ⟨"amqp:link:detach-forced", "gone"⟩⟩).2.2.1
      ⟨"amqp:link:detach-forced", "gone"⟩ rfl).1,
   ((trySend_disposition_outcomes "c" "s" ⟨2, none⟩).2.2.2 rfl).2⟩

/-- C4: when the link is not sendable, the `_trySend` promise rejects
immediately with the no-credit (try later) error; the executor performs
no link operation at all — no send is issued and no disposition handler
is registered — and the message is not queued anywhere (the operation
trace is empty).  The rejection text ends with the try-later phrase. -/
theorem trySend_no_credit (connId id : String) :
    trySendExecutor connId id false
      = ([], ⟨Handlers.allOff,
          some (SendOutcome.rejectedWith (SendError.noCredit connId id))⟩)
    ∧ (trySendExecutor connId id false).1 = []
    ∧ SenderOp.send ∉ (trySendExecutor connId id false).1
    ∧ (∀ ev : DispEvent,
        SenderOp.registerHandler ev ∉ (trySendExecutor connId id false).1)
    ∧ noCreditMessage connId id
        = ("[" ++ connId ++ "]Sender \"" ++ id ++ "\", ")
          ++ "cannot send the message right now. Please try later." := by
  refine ⟨rfl, rfl, ?_, ?_, ?_⟩
  · simp [trySendExecutor]
  · intro ev; simp [trySendExecutor]
  · simp [noCreditMessage, String.append_assoc]

/-- C6 (code bug evidence): `_trySend` creates `sendEventPromise` before
calling `retry` and hands `retry` the constant operation
`() => sendEventPromise`.  Evaluated at the failing input — link
sendable, the sole delivery disposition a retryable `rejected`, a retry
budget of three attempts — the whole call issues exactly one send on the
link and every attempt observes the first attempt's already-settled
rejection; no attempt re-executes the send. -/
theorem trySend_retry_never_reexecutes :
    trySendWithRetry "conn-1" "sender-1" true
        ⟨3, some ⟨"amqp:internal-error", "busy"⟩⟩ [DispEvent.rejected] 3
      = (1, List.replicate 3
          (some (SendOutcome.rejectedWith
            (SendError.translated (some ⟨"amqp:internal-error", "busy"⟩))))) := by
  decide

/-- An AMQP message as `sendBatch` sees it after the elementwise
conversion of lines 134-138 (`ServiceBusMessage.toAmqpMessage` followed
by the body encoder): an opaque encoded body, the two annotation maps,
and the named properties read by the `messageProperties` copy loop
(`props name` is the value of property `name`, absent when the message
does not carry it). -/
structure AmqpMessage where
  body : String
  message_annotations : Option String
  application_properties : Option String
  props : String → Option String

/-- Symbolic `message.encode` of the rhea transport engine. -/
inductive EncodedMsg where
  | enc (m : AmqpMessage)

/-- The batch envelope built by `sendBatch`: its body is the
`data_sections` of the individually encoded messages, and it carries one
set of annotation maps and named properties. -/
structure BatchEnvelope where
  body : List EncodedMsg
  message_annotations : Option String
  application_properties : Option String
  props : String → Option String

/-- The property copy loop of lines 151-155: for each name in
`messageProperties`, if the source message carries that property its
value is written onto the accumulating target. -/
def copyProps (src : String → Option String) :
    List String → (String → Option String) → String → Option String
  | [], acc => acc
  | p :: restNames, acc =>
    match src p with
    | some v => copyProps src restNames fun q => if q = p then some v else acc q
    | none => copyProps src restNames acc

/-- Lines 140-158 of `src/lib/index.ts`: the envelope of
`sendBatch(m0 :: rest)`.  Every message is encoded individually and the
encoded forms are concatenated into the envelope body; the
`message_annotations` and `application_properties` maps are copied from
the first message when present, and each name in `propNames` (the
`messageProperties` list of the transport engine) is copied from the
first message when present. -/
def sendBatchEnvelope (propNames : List String) (m0 : AmqpMessage)
    (rest : List AmqpMessage) : BatchEnvelope :=
  { body := (m0 :: rest).map EncodedMsg.enc
  , message_annotations :=
      if m0.message_annotations.isSome then m0.message_annotations else none
  , application_properties :=
      if m0.application_properties.isSome then m0.application_properties else none
  , props := copyProps m0.props propNames fun _ => none }

lemma copyProps_apply (src : String → Option String) :
    ∀ (l : List String) (acc : String → Option String) (q : String),
      copyProps src l acc q
        = if q ∈ l ∧ (src q).isSome then src q else acc q := by
  intro l
  induction l with
  | nil => intro acc q; simp [copyProps]
  | cons p restNames ih =>
    intro acc q
    cases hv : src p with
    | some v =>
      simp only [copyProps, hv]
      rw [ih]
      rcases Decidable.em (q = p) with hq | hq
      · subst hq
        by_cases hmem : q ∈ restNames <;> simp [hmem, hv]
      · by_cases hmem : q ∈ restNames <;>
          by_cases hs : (src q).isSome <;>
            simp [hmem, hs, hq, List.mem_cons]
    | none =>
      simp only [copyProps, hv]
      rw [ih]
      rcases Decidable.em (q = p) with hq | hq
      · subst hq
        simp [hv]
      · simp [List.mem_cons, hq]

/-- C5: for a nonempty message list `m0 :: rest`, the envelope body is
the concatenation of the individually encoded messages, and the
envelope's `message_annotations`, `application_properties` and named
properties all come from `m0` alone: they equal `m0`'s values on every
copied name, are absent on names outside the copy list, and are
unchanged when the tail of the batch is replaced by any other list of
messages. -/
theorem sendBatch_metadata_from_first (propNames : List String)
    (m0 : AmqpMessage) (rest rest2 : List AmqpMessage) :
    (sendBatchEnvelope propNames m0 rest).body = (m0 :: rest).map EncodedMsg.enc
    ∧ (sendBatchEnvelope propNames m0 rest).message_annotations
        = m0.message_annotations
    ∧ (sendBatchEnvelope propNames m0 rest).application_properties
        = m0.application_properties
    ∧ (∀ p, p ∈ propNames →
        (sendBatchEnvelope propNames m0 rest).props p = m0.props p)
    ∧ (∀ p, p ∉ propNames →
        (sendBatchEnvelope propNames m0 rest).props p = none)
    ∧ (sendBatchEnvelope propNames m0 rest).message_annotations
        = (sendBatchEnvelope propNames m0 rest2).message_annotations
    ∧ (sendBatchEnvelope propNames m0 rest).application_properties
        = (sendBatchEnvelope propNames m0 rest2).application_properties
    ∧ (∀ p, (sendBatchEnvelope propNames m0 rest).props p
        = (sendBatchEnvelope propNames m0 rest2).props p) := by
  have hma : (sendBatchEnvelope propNames m0 rest).message_annotations
      = m0.message_annotations := by
    cases h : m0.message_annotations <;> simp [sendBatchEnvelope, h]
  have hap : (sendBatchEnvelope propNames m0 rest).application_properties
      = m0.application_properties := by
    cases h : m0.application_properties <;> simp [sendBatchEnvelope, h]
  have hma2 : (sendBatchEnvelope propNames m0 rest2).message_annotations
      = m0.message_annotations := by
    cases h : m0.message_annotations <;> simp [sendBatchEnvelope, h]
  have hap2 : (sendBatchEnvelope propNames m0 rest2).application_properties
      = m0.application_properties := by
    cases h : m0.application_properties <;> simp [sendBatchEnvelope, h]
  refine ⟨rfl, hma, hap, ?_, ?_, hma.trans hma2.symm, hap.trans hap2.symm, ?_⟩
  · intro p hp
    show copyProps m0.props propNames (fun _ => none) p = m0.props p
    rw [copyProps_apply]
    by_cases hs : (m0.props p).isSome
    · simp [hp, hs]
    · simp [hp, hs]
      exact (by simpa using hs : m0.props p = none).symm
  · intro p hp
    show copyProps m0.props propNames (fun _ => none) p = none
    rw [copyProps_apply]
    simp [hp]
  · intro p; rfl

/-- Witness for `sendBatch_metadata_from_first` at a concrete input: the
envelope of a two-message batch takes its annotations and its
`message_id` property from the first message, ignoring the second
message's differing annotations, and drops names outside the copy
list. -/
theorem sendBatch_metadata_from_first_witness :
    (sendBatchEnvelope ["message_id"]
        ⟨"b0", some "priority-high", none,
          fun q => if q = "message_id" then some "m-0" else none⟩
        [⟨"b1", some "priority-low", some "x",
          fun _ => some "m-1"⟩]).message_annotations = some "priority-high"
    ∧ (sendBatchEnvelope ["message_id"]
        ⟨"b0", some "priority-high", none,
          fun q => if q = "message_id" then some "m-0" else none⟩
        [⟨"b1", some "priority-low", some "x",
          fun _ => some "m-1"⟩]).props "message_id" = some "m-0"
    ∧ (sendBatchEnvelope ["message_id"]
        ⟨"b0", some "priority-high", none,
          fun q => if q = "message_id" then some "m-0" else none⟩
        [⟨"b1", some "priority-low", some "x",
          fun _ => some "m-1"⟩]).props "reply_to" = none :=
  ⟨(sendBatch_metadata_from_first ["message_id"] _ _ []).2.1,
   (sendBatch_metadata_from_first ["message_id"] _ _ []).2.2.2.1
      "message_id" (by simp),
   (sendBatch_metadata_from_first ["message_id"] _ _ []).2.2.2.2.1
      "reply_to" (by simp)⟩

/-- The argument of `sendBatch` as the guard of lines 121-123 sees it:
absent (undefined/null), present but not an array, or an array of
messages. -/
inductive BatchInput where
  | missing
  | nonArray
  | array (msgs : List AmqpMessage)

/-- What a `sendBatch` call did before returning: whether the
initialization path (lock acquisition and `_init`) ran, and whether
`_trySend` was reached. -/
structure SendBatchTrace where
  initRan : Bool
  trySendReached : Bool
  deriving DecidableEq

/-- The two failures of `sendBatch` before any delivery is attempted:
the validation error of lines 121-123, and the TypeError thrown by
reading `messages[0].message_annotations` (line 145) when the message
array is empty, `messages[0]` being undefined. -/
inductive SendBatchError where
  | validationError
  | undefinedFirstMessage
  deriving DecidableEq

/-- Control flow of `MessageSender.sendBatch` (lines 119-166): a missing
or non-array argument fails validation before the initialization path;
an array argument runs initialization when the link is not open, then
builds the envelope — which on an empty array throws while reading the
first message's `message_annotations`, so `_trySend` is never reached. -/
def sendBatchRun (propNames : List String) (linkOpen : Bool) (input : BatchInput) :
    SendBatchTrace × Except SendBatchError BatchEnvelope :=
  match input with
  | .missing => (⟨false, false⟩, .error .validationError)
  | .nonArray => (⟨false, false⟩, .error .validationError)
  | .array msgs =>
    match msgs with
    | [] => (⟨!linkOpen, false⟩, .error .undefinedFirstMessage)
    | m0 :: rest => (⟨!linkOpen, true⟩, .ok (sendBatchEnvelope propNames m0 rest))

/-- C10: `sendBatch` on the empty array passes validation, runs the
initialization path (when the link is not yet open), and then fails on
the undefined first message — rejecting without ever reaching
`_trySend`; a missing or non-array argument rejects with the validation
error, with no initialization and no `_trySend`. -/
theorem sendBatch_empty_and_invalid_inputs (propNames : List String)
    (linkOpen : Bool) :
    sendBatchRun propNames linkOpen (.array [])
      = (⟨!linkOpen, false⟩, .error .undefinedFirstMessage)
    ∧ sendBatchRun propNames linkOpen .missing
      = (⟨false, false⟩, .error .validationError)
    ∧ sendBatchRun propNames linkOpen .nonArray
      = (⟨false, false⟩, .error .validationError)
    ∧ (sendBatchRun propNames linkOpen (.array [])).1.trySendReached = false
    ∧ (sendBatchRun propNames linkOpen .missing).1.initRan = false
    ∧ (sendBatchRun propNames linkOpen .nonArray).1.initRan = false :=
  ⟨rfl, rfl, rfl, rfl, rfl, rfl⟩

/-- The mutable state `MessageSender.close` touches: whether
`this._sender` is set, whether the context's sender slot holds this
sender, and whether the token-renewal timer is pending. -/
structure SenderState where
  linkPresent : Bool
  contextSenderSet : Bool
  timerActive : Bool
  deriving DecidableEq

/-- Observable effects of one `close()` call. -/
structure CloseEffects where
  linkCloseCalls : Nat
  timerCancels : Nat
  deriving DecidableEq

/-- `MessageSender.close` (lines 68-83): when `this._sender` is set it
awaits the link close, clears the context's sender slot, clears the
field and cancels the token-renewal timer; when the link close rejects
(`linkCloseFails`) the error is rethrown before anything is cleared.
When `this._sender` is not set the whole body is skipped.  The third
component of the result reports whether the call threw. -/
def close (s : SenderState) (linkCloseFails : Bool) :
    SenderState × CloseEffects × Bool :=
  if s.linkPresent then
    if linkCloseFails then
      (s, ⟨1, 0⟩, true)
    else
      (⟨false, false, false⟩, ⟨1, 1⟩, false)
  else
    (s, ⟨0, 0⟩, false)

/-- C7: a successful `close()` on a sender with a link closes the link
once, clears the context's sender slot and cancels the token-renewal
timer once; on a sender without a link, `close()` is a no-op producing
no error, no link close and no timer cancellation; and a second
`close()` after a successful first one is always such a no-op. -/
theorem close_idempotent (s : SenderState) :
    (s.linkPresent = true →
      close s false = (⟨false, false, false⟩, ⟨1, 1⟩, false))
    ∧ (s.linkPresent = false →
      ∀ b, close s b = (s, ⟨0, 0⟩, false))
    ∧ (∀ b, close (close s false).1 b = ((close s false).1, ⟨0, 0⟩, false)) := by
  refine ⟨?_, ?_, ?_⟩
  · intro h; simp [close, h]
  · intro h b; simp [close, h]
  · intro b
    by_cases h : s.linkPresent <;> simp [close, h]

/-- Witness for `close_idempotent` at a concrete input: closing a live
sender clears everything with one link close and one timer cancel, and
closing it again is an error-free no-op. -/
theorem close_idempotent_witness :
    close ⟨true, true, true⟩ false = (⟨false, false, false⟩, ⟨1, 1⟩, false)
    ∧ close (close ⟨true, true, true⟩ false).1 false
      = ((close ⟨true, true, true⟩ false).1, ⟨0, 0⟩, false) :=
  ⟨(close_idempotent ⟨true, true, true⟩).1 rfl,
   (close_idempotent ⟨true, true, true⟩).2.2 false⟩

/-- The context's streaming-receiver as the facade guard sees it. -/
structure StreamingReceiverRef where
  isOpen : Bool
  deriving DecidableEq

/-- The result of a `SubscriptionClient.receive` call: the context slot
after the call, whether a new `StreamingReceiver` was created, whether
it was started (`sReceiver.receive(onMessage, onError)`), and whether
the call threw synchronously. -/
structure ReceiveEffect where
  newSlot : Option StreamingReceiverRef
  createdNew : Bool
  startedNew : Bool
  threw : Bool
  deriving DecidableEq

/-- `SubscriptionClient.receive` (lines 111-132 of
`src/lib/subscriptionClient.ts`): when the context has no streaming
receiver, or has one that is not open, a new `StreamingReceiver` is
created, stored in the context slot and started; otherwise the call
throws synchronously and leaves the slot untouched.  A freshly created
and started receiver is open. -/
def subscriptionReceive (slot : Option StreamingReceiverRef) : ReceiveEffect :=
  match slot with
  | none => ⟨some ⟨true⟩, true, true, false⟩
  | some r =>
    if r.isOpen then ⟨some r, false, false, true⟩
    else ⟨some ⟨true⟩, true, true, false⟩

/-- C8: calling the facade's `receive` while the slot holds an open
streaming receiver throws synchronously, creates no receiver and leaves
the existing receiver in the slot; when the slot is empty or holds a
receiver that is not open, a new receiver is created, stored in the
slot and started, and nothing is thrown. -/
theorem receive_conflict_guard (slot : Option StreamingReceiverRef) :
    (∀ r, slot = some r → r.isOpen = true →
      subscriptionReceive slot = ⟨some r, false, false, true⟩)
    ∧ (slot = none →
      subscriptionReceive slot = ⟨some ⟨true⟩, true, true, false⟩)
    ∧ (∀ r, slot = some r → r.isOpen = false →
      subscriptionReceive slot = ⟨some ⟨true⟩, true, true, false⟩) := by
  refine ⟨?_, ?_, ?_⟩
  · intro r hr hop; subst hr; simp [subscriptionReceive, hop]
  · intro h; subst h; rfl
  · intro r hr hop; subst hr; simp [subscriptionReceive, hop]

/-- Witness for `receive_conflict_guard` at concrete inputs: a second
`receive` against an open receiver throws and keeps the old receiver in
the slot; a `receive` on an empty slot creates, stores and starts a new
one. -/
theorem receive_conflict_guard_witness :
    subscriptionReceive (some ⟨true⟩) = ⟨some ⟨true⟩, false, false, true⟩
    ∧ subscriptionReceive none = ⟨some ⟨true⟩, true, true, false⟩ :=
  ⟨(receive_conflict_guard (some ⟨true⟩)).1 ⟨true⟩ rfl rfl,
   (receive_conflict_guard none).2.1 rfl⟩

/-- The context's batching-receiver as the facade guard sees it. -/
structure BatchingReceiverRef where
  isOpen : Bool
  isReceivingMessages : Bool
  deriving DecidableEq

/-- The result of a `SubscriptionClient.receiveBatch` call: whether a
new `BatchingReceiver` was created and stored, whether the network was
engaged (`bReceiver.receive(...)` awaited), and whether the call threw
synchronously. -/
structure ReceiveBatchEffect where
  createdNew : Bool
  networkUsed : Bool
  threw : Bool
  deriving DecidableEq

/-- The acceptance condition of `SubscriptionClient.receiveBatch`
(lines 145-147): no batching receiver in the slot, or one that is not
open, or one that is not currently receiving. -/
def receiveBatchAccepts (slot : Option BatchingReceiverRef) : Bool :=
  match slot with
  | none => true
  | some r => !r.isOpen || !r.isReceivingMessages

/-- `SubscriptionClient.receiveBatch` (lines 144-175): when accepted, a
new `BatchingReceiver` is created, stored and its network receive
awaited; otherwise the call throws synchronously with no network
interaction. -/
def subscriptionReceiveBatch (slot : Option BatchingReceiverRef) :
    ReceiveBatchEffect :=
  if receiveBatchAccepts slot then ⟨true, true, false⟩ else ⟨false, false, true⟩

/-- C9: `receiveBatch` throws synchronously, with no receiver creation
and no network interaction, exactly when the slot holds a batching
receiver that is open and currently receiving; in every other slot state
(no receiver, receiver not open, or receiver not receiving — i.e. the
prior batch call has returned) the call is accepted. -/
theorem receiveBatch_conflict_guard (slot : Option BatchingReceiverRef) :
    (∀ r, slot = some r → r.isOpen = true → r.isReceivingMessages = true →
      subscriptionReceiveBatch slot = ⟨false, false, true⟩)
    ∧ ((slot = none
        ∨ ∃ r, slot = some r
            ∧ (r.isOpen = false ∨ r.isReceivingMessages = false)) →
      subscriptionReceiveBatch slot = ⟨true, true, false⟩) := by
  constructor
  · intro r hr hop hrecv; subst hr
    simp [subscriptionReceiveBatch, receiveBatchAccepts, hop, hrecv]
  · intro h
    rcases h with h | ⟨r, hr, hcase⟩
    · subst h; rfl
    · subst hr
      rcases hcase with h | h <;>
        simp [subscriptionReceiveBatch, receiveBatchAccepts, h]

/-- Witness for `receiveBatch_conflict_guard` at concrete inputs: an
open, receiving batching receiver makes the call throw without network
interaction; an open receiver whose prior batch call has returned lets
the call proceed. -/
theorem receiveBatch_conflict_guard_witness :
    subscriptionReceiveBatch (some ⟨true, true⟩) = ⟨false, false, true⟩
    ∧ subscriptionReceiveBatch (some ⟨true, false⟩) = ⟨true, true, false⟩ :=
  ⟨(receiveBatch_conflict_guard (some ⟨true, true⟩)).1 ⟨true, true⟩ rfl rfl rfl,
   (receiveBatch_conflict_guard (some ⟨true, false⟩)).2
      (Or.inr ⟨⟨true, false⟩, rfl, Or.inr rfl⟩)⟩

/-- Phase of one `send`/`sendBatch` caller on its way through the
initialization path (lines 97-101 and 125-128 of `src/lib/index.ts`,
and `_init` at lines 268-297): about to check `_isOpen`; awaiting the
in-flight initializer under the sender lock; running `_init` (about to
re-check `_isOpen`); awaiting the link-open attempt
(`connection.createSender`); or finished with the initialization
outcome it observed. -/
inductive SendPhase where
  | start
  | waitLock
  | inInit
  | attempting
  | done (success : Bool)
  deriving DecidableEq

/-- Modelled from the spec: the state of `n` concurrent `send` callers
serialized through `defaultLock.acquire(senderLock, () => _init())`.
The source of `defaultLock` (amqp-common) is not under src/; following
the specification of the Exclusive-Initialization Lock, at most one
initializer runs per key at a time (`flightRunner`) and concurrent
callers for the same key await that same pending result
(`flightWaiters`) instead of starting a duplicate.  `linkOpen` is the
`_isOpen()` state of the sender link and `attemptsStarted` counts the
link-open attempts ever started. -/
structure InitSystem (n : Nat) where
  linkOpen : Bool
  flightRunner : Option (Fin n)
  flightWaiters : List (Fin n)
  phase : Fin n → SendPhase
  attemptsStarted : Nat

/-- The initial state: no link, no initializer in flight, all `n`
callers about to check the open state, no attempt started. -/
def initState (n : Nat) : InitSystem n :=
  ⟨false, none, [], fun _ => .start, 0⟩

/-- Replace caller `i`'s phase. -/
def setPhase {n : Nat} (s : InitSystem n) (i : Fin n) (ph : SendPhase) :
    InitSystem n :=
  { s with phase := fun j => if j = i then ph else s.phase j }

/-- Resolution of the in-flight initializer with result `b`: the lock
propagates the same outcome to the runner and every waiter of the
flight, and releases the key; a successful attempt leaves the link
open. -/
def completeFlight {n : Nat} (s : InitSystem n) (b : Bool) : InitSystem n :=
  { linkOpen := s.linkOpen || b
  , flightRunner := none
  , flightWaiters := []
  , phase := fun j =>
      if s.flightRunner = some j ∨ j ∈ s.flightWaiters then .done b
      else s.phase j
  , attemptsStarted := s.attemptsStarted }

/-- One interleaving step of the `n` callers.  `allowFail = false`
restricts runs to those in which every link-open attempt succeeds.
The steps translate the code: a caller that finds the link open skips
initialization; a caller that finds it closed acquires the lock,
starting the initializer if none is in flight and joining the pending
one otherwise; the initializer re-checks the open state after
acquiring, completing at once when another waiter already opened the
link, and otherwise starts the single link-open attempt whose
resolution completes the flight for the runner and every waiter. -/
inductive Step (n : Nat) (allowFail : Bool) :
    InitSystem n → InitSystem n → Prop where
  | openSkip (s : InitSystem n) (i : Fin n) :
      s.phase i = .start → s.linkOpen = true →
      Step n allowFail s (setPhase s i (.done true))
  | acquireRun (s : InitSystem n) (i : Fin n) :
      s.phase i = .start → s.linkOpen = false → s.flightRunner = none →
      Step n allowFail s { setPhase s i .inInit with flightRunner := some i }
  | acquireJoin (s : InitSystem n) (i r : Fin n) :
      s.phase i = .start → s.linkOpen = false → s.flightRunner = some r →
      Step n allowFail s
        { setPhase s i .waitLock with flightWaiters := s.flightWaiters ++ [i] }
  | initSkip (s : InitSystem n) (i : Fin n) :
      s.phase i = .inInit → s.flightRunner = some i → s.linkOpen = true →
      Step n allowFail s (completeFlight s true)
  | initOpen (s : InitSystem n) (i : Fin n) :
      s.phase i = .inInit → s.flightRunner = some i → s.linkOpen = false →
      Step n allowFail s
        { setPhase s i .attempting with attemptsStarted := s.attemptsStarted + 1 }
  | attemptResolve (s : InitSystem n) (i : Fin n) (b : Bool) :
      s.phase i = .attempting → s.flightRunner = some i →
      (allowFail = true ∨ b = true) →
      Step n allowFail s (completeFlight s b)

/-- States reachable from the initial state by interleavings of the `n`
callers. -/
def Reached (n : Nat) (allowFail : Bool) (s : InitSystem n) : Prop :=
  Relation.ReflTransGen (Step n allowFail) (initState n) s

/-- Lock invariant: when no initializer is in flight nobody is inside
`_init` or the link-open attempt and there are no waiters; when one is
in flight, exactly its runner is inside. -/
def InvLock {n : Nat} (s : InitSystem n) : Prop :=
  (s.flightRunner = none →
    s.flightWaiters = []
    ∧ ∀ j, s.phase j ≠ .inInit ∧ s.phase j ≠ .attempting)
  ∧ ∀ r, s.flightRunner = some r →
    (s.phase r = .inInit ∨ s.phase r = .attempting)
    ∧ ∀ j, j ≠ r → s.phase j ≠ .inInit ∧ s.phase j ≠ .attempting

/-- Single-attempt invariant for runs in which every attempt succeeds:
at most one link-open attempt ever starts, the link is open exactly when
a completed attempt exists, and every finished caller observed
success. -/
def InvOnce {n : Nat} (s : InitSystem n) : Prop :=
  s.attemptsStarted ≤ 1
  ∧ (s.linkOpen = true → 1 ≤ s.attemptsStarted)
  ∧ ((∃ j, s.phase j = .attempting) →
      s.linkOpen = false ∧ 1 ≤ s.attemptsStarted)
  ∧ (1 ≤ s.attemptsStarted → (∀ j, s.phase j ≠ .attempting) →
      s.linkOpen = true)
  ∧ ∀ j b, s.phase j = .done b → b = true

lemma invLock_init (n : Nat) : InvLock (initState n) := by
  refine ⟨fun _ => ⟨rfl, fun j => ⟨?_, ?_⟩⟩, fun r hr => ?_⟩
  · simp [initState]
  · simp [initState]
  · simp [initState] at hr

lemma invLock_step {n : Nat} {af : Bool} {s t : InitSystem n}
    (h : Step n af s t) (hl : InvLock s) : InvLock t := by
  obtain ⟨hnone, hsome⟩ := hl
  cases h with
  | openSkip i hstart hopen =>
    constructor
    · intro hr
      obtain ⟨hw, hph⟩ := hnone hr
      refine ⟨hw, fun j => ?_⟩
      by_cases hji : j = i
      · subst hji; simp [setPhase]
      · simpa [setPhase, hji] using hph j
    · intro r hr
      obtain ⟨hpr, hoth⟩ := hsome r hr
      have hri : r ≠ i := by
        intro hcon; subst hcon
        rcases hpr with hp | hp <;> rw [hstart] at hp <;> cases hp
      refine ⟨by simpa [setPhase, hri] using hpr, fun j hjr => ?_⟩
      by_cases hji : j = i
      · subst hji; simp [setPhase]
      · simpa [setPhase, hji] using hoth j hjr
  | acquireRun i hstart hclosed hrun =>
    constructor
    · intro hr; cases hr
    · intro r hr
      have hri : r = i := (Option.some.inj hr).symm
      subst hri
      refine ⟨Or.inl (by simp [setPhase]), fun j hjr => ?_⟩
      have := (hnone hrun).2 j
      simpa [setPhase, hjr] using this
  | acquireJoin i r0 hstart hclosed hrun =>
    constructor
    · intro hr
      have hr2 : s.flightRunner = none := hr
      rw [hrun] at hr2; cases hr2
    · intro r hr
      have hr2 : s.flightRunner = some r := hr
      rw [hrun] at hr2
      have hrr : r = r0 := (Option.some.inj hr2).symm
      subst hrr
      obtain ⟨hpr, hoth⟩ := hsome r hrun
      have hri : r ≠ i := by
        intro hcon; subst hcon
        rcases hpr with hp | hp <;> rw [hstart] at hp <;> cases hp
      refine ⟨by simpa [setPhase, hri] using hpr, fun j hjr => ?_⟩
      by_cases hji : j = i
      · subst hji; simp [setPhase]
      · simpa [setPhase, hji] using hoth j hjr
  | initSkip i hin hrun hopen =>
    constructor
    · intro _
      refine ⟨rfl, fun j => ?_⟩
      by_cases hm : s.flightRunner = some j ∨ j ∈ s.flightWaiters
      · constructor <;> simp [completeFlight, hm]
      · have hji : j ≠ i := fun hcon => hm (Or.inl (hcon ▸ hrun))
        have := (hsome i hrun).2 j hji
        constructor <;> simp [completeFlight, hm] <;> simp at this <;> tauto
    · intro r hr
      exact absurd hr (by simp [completeFlight])
  | initOpen i hin hrun hclosed =>
    constructor
    · intro hr
      have hr2 : s.flightRunner = none := hr
      rw [hrun] at hr2; cases hr2
    · intro r hr
      have hr2 : s.flightRunner = some r := hr
      rw [hrun] at hr2
      have hri : r = i := (Option.some.inj hr2).symm
      subst hri
      refine ⟨Or.inr (by simp [setPhase]), fun j hjr => ?_⟩
      have := (hsome r hrun).2 j hjr
      simpa [setPhase, hjr] using this
  | attemptResolve i b hatt hrun hb =>
    constructor
    · intro _
      refine ⟨rfl, fun j => ?_⟩
      by_cases hm : s.flightRunner = some j ∨ j ∈ s.flightWaiters
      · constructor <;> simp [completeFlight, hm]
      · have hji : j ≠ i := fun hcon => hm (Or.inl (hcon ▸ hrun))
        have := (hsome i hrun).2 j hji
        constructor <;> simp [completeFlight, hm] <;> simp at this <;> tauto
    · intro r hr
      exact absurd hr (by simp [completeFlight])

lemma invOnce_init (n : Nat) : InvOnce (initState n) := by
  refine ⟨by simp [initState], by simp [initState], ?_, by simp [initState], ?_⟩
  · rintro ⟨j, hj⟩; simp [initState] at hj
  · intro j b hj; simp [initState] at hj

lemma invOnce_step {n : Nat} {s t : InitSystem n}
    (h : Step n false s t) (hl : InvLock s) (ho : InvOnce s) : InvOnce t := by
  obtain ⟨o1, o2, o3, o4, o5⟩ := ho
  cases h with
  | openSkip i hstart hopen =>
    refine ⟨o1, o2, ?_, ?_, ?_⟩
    · rintro ⟨j, hj⟩
      apply o3
      refine ⟨j, ?_⟩
      by_cases hji : j = i
      · subst hji; simp [setPhase] at hj
      · simpa [setPhase, hji] using hj
    · intro h1 hall
      apply o4 h1
      intro j
      by_cases hji : j = i
      · subst hji; rw [hstart]; simp
      · have := hall j
        simpa [setPhase, hji] using this
    · intro j b hj
      by_cases hji : j = i
      · subst hji
        simp [setPhase] at hj
        exact hj
      · exact o5 j b (by simpa [setPhase, hji] using hj)
  | acquireRun i hstart hclosed hrun =>
    refine ⟨o1, o2, ?_, ?_, ?_⟩
    · rintro ⟨j, hj⟩
      apply o3
      refine ⟨j, ?_⟩
      by_cases hji : j = i
      · subst hji; simp [setPhase] at hj
      · simpa [setPhase, hji] using hj
    · intro h1 hall
      apply o4 h1
      intro j
      by_cases hji : j = i
      · subst hji; rw [hstart]; simp
      · have := hall j
        simpa [setPhase, hji] using this
    · intro j b hj
      by_cases hji : j = i
      · subst hji; simp [setPhase] at hj
      · exact o5 j b (by simpa [setPhase, hji] using hj)
  | acquireJoin i r0 hstart hclosed hrun =>
    refine ⟨o1, o2, ?_, ?_, ?_⟩
    · rintro ⟨j, hj⟩
      apply o3
      refine ⟨j, ?_⟩
      by_cases hji : j = i
      · subst hji; simp [setPhase] at hj
      · simpa [setPhase, hji] using hj
    · intro h1 hall
      apply o4 h1
      intro j
      by_cases hji : j = i
      · subst hji; rw [hstart]; simp
      · have := hall j
        simpa [setPhase, hji] using this
    · intro j b hj
      by_cases hji : j = i
      · subst hji; simp [setPhase] at hj
      · exact o5 j b (by simpa [setPhase, hji] using hj)
  | initSkip i hin hrun hopen =>
    refine ⟨o1, fun _ => o2 hopen, ?_, ?_, ?_⟩
    · rintro ⟨j, hj⟩
      exfalso
      by_cases hm : s.flightRunner = some j ∨ j ∈ s.flightWaiters
      · simp [completeFlight, hm] at hj
      · have hj2 : s.phase j = SendPhase.attempting := by
          simpa [completeFlight, hm] using hj
        have := (o3 ⟨j, hj2⟩).1
        rw [hopen] at this; cases this
    · intro _ _
      show s.linkOpen || true = true
      simp
    · intro j b hj
      by_cases hm : s.flightRunner = some j ∨ j ∈ s.flightWaiters
      · simp [completeFlight, hm] at hj
        exact hj
      · exact o5 j b (by simpa [completeFlight, hm] using hj)
  | initOpen i hin hrun hclosed =>
    have hzero : s.attemptsStarted = 0 := by
      by_contra hnz
      have h1 : 1 ≤ s.attemptsStarted := Nat.one_le_iff_ne_zero.mpr hnz
      have hnoatt : ∀ j, s.phase j ≠ SendPhase.attempting := by
        intro j
        by_cases hji : j = i
        · subst hji; rw [hin]; simp
        · exact ((hl.2 i hrun).2 j hji).2
      have := o4 h1 hnoatt
      rw [hclosed] at this; cases this
    refine ⟨?_, ?_, ?_, ?_, ?_⟩
    · show s.attemptsStarted + 1 ≤ 1
      omega
    · intro hlo
      have h2 : s.linkOpen = true := hlo
      rw [hclosed] at h2; cases h2
    · intro _
      exact ⟨hclosed, Nat.le_add_left 1 s.attemptsStarted⟩
    · intro _ hall
      exfalso
      apply hall i
      show (setPhase s i SendPhase.attempting).phase i = SendPhase.attempting
      simp [setPhase]
    · intro j b hj
      by_cases hji : j = i
      · subst hji; simp [setPhase] at hj
      · exact o5 j b (by simpa [setPhase, hji] using hj)
  | attemptResolve i b hatt hrun hb =>
    have hbt : b = true := by
      rcases hb with hb | hb
      · cases hb
      · exact hb
    subst hbt
    have h1 : 1 ≤ s.attemptsStarted := (o3 ⟨i, hatt⟩).2
    refine ⟨o1, fun _ => h1, ?_, ?_, ?_⟩
    · rintro ⟨j, hj⟩
      exfalso
      by_cases hm : s.flightRunner = some j ∨ j ∈ s.flightWaiters
      · simp [completeFlight, hm] at hj
      · have hj2 : s.phase j = SendPhase.attempting := by
          simpa [completeFlight, hm] using hj
        have hji : j ≠ i := fun hc => hm (Or.inl (hc ▸ hrun))
        exact ((hl.2 i hrun).2 j hji).2 hj2
    · intro _ _
      show s.linkOpen || true = true
      simp
    · intro j b2 hj
      by_cases hm : s.flightRunner = some j ∨ j ∈ s.flightWaiters
      · simp [completeFlight, hm] at hj
        exact hj
      · exact o5 j b2 (by simpa [completeFlight, hm] using hj)

lemma reached_invLock {n : Nat} {af : Bool} {s : InitSystem n}
    (h : Reached n af s) : InvLock s := by
  induction h with
  | refl => exact invLock_init n
  | tail _ hstep ih => exact invLock_step hstep ih

lemma reached_invOnce {n : Nat} {s : InitSystem n}
    (h : Reached n false s) : InvOnce s := by
  have hpair : InvLock s ∧ InvOnce s := by
    induction h with
    | refl => exact ⟨invLock_init n, invOnce_init n⟩
    | tail _ hstep ih =>
      exact ⟨invLock_step hstep ih.1, invOnce_step hstep ih.1 ih.2⟩
  exact hpair.2

/-- C1: in the model of `send`/`sendBatch` callers serialized through
the per-sender initialization lock, with `_init` re-checking the open
state after acquiring: in every reachable state at most one caller is
inside a link-open attempt at a time; in every reachable state of a run
whose attempts succeed, at most one link-open attempt ever starts and
every caller that finished observed success; and whenever the in-flight
initializer resolves with outcome `b`, its runner and every one of its
waiters observe that same outcome. -/
theorem send_init_single_flight (n : Nat) (allowFail : Bool) (s : InitSystem n) :
    (Reached n allowFail s →
      ∀ i j : Fin n, s.phase i = SendPhase.attempting →
        s.phase j = SendPhase.attempting → i = j)
    ∧ (Reached n false s →
      s.attemptsStarted ≤ 1
      ∧ ∀ (j : Fin n) (b : Bool), s.phase j = SendPhase.done b → b = true)
    ∧ ∀ (u : InitSystem n) (b : Bool) (j : Fin n),
        u.flightRunner = some j ∨ j ∈ u.flightWaiters →
        (completeFlight u b).phase j = SendPhase.done b := by
  refine ⟨?_, ?_, ?_⟩
  · intro hr i j hi hj
    have hl := reached_invLock hr
    cases hfr : s.flightRunner with
    | none => exact absurd hi ((hl.1 hfr).2 i).2
    | some r =>
      have hs := hl.2 r hfr
      have hir : i = r := by
        by_contra hc; exact (hs.2 i hc).2 hi
      have hjr : j = r := by
        by_contra hc; exact (hs.2 j hc).2 hj
      rw [hir, hjr]
  · intro hr
    have ho := reached_invOnce hr
    exact ⟨ho.1, ho.2.2.2.2⟩
  · intro u b j hm
    simp [completeFlight, hm]

/-- Witness for `send_init_single_flight` at concrete inputs: the
initial state of two concurrent callers is reachable (by the empty run)
and satisfies all the conclusions, and a flight whose runner is caller 0
hands caller 0 the resolved outcome. -/
theorem send_init_single_flight_witness :
    (∀ i j : Fin 2, (initState 2).phase i = SendPhase.attempting →
        (initState 2).phase j = SendPhase.attempting → i = j)
    ∧ ((initState 2).attemptsStarted ≤ 1
        ∧ ∀ (j : Fin 2) (b : Bool),
            (initState 2).phase j = SendPhase.done b → b = true)
    ∧ (completeFlight { initState 2 with flightRunner := some 0 } true).phase 0
        = SendPhase.done true :=
  ⟨(send_init_single_flight 2 true (initState 2)).1 Relation.ReflTransGen.refl,
   (send_init_single_flight 2 false (initState 2)).2.1 Relation.ReflTransGen.refl,
   (send_init_single_flight 2 true (initState 2)).2.2
      { initState 2 with flightRunner := some 0 } true 0 (Or.inl rfl)⟩

end SBus
